import Mathlib

/-!
Shallow embedding of `export-cloudflare-dns` (src/src/main.rs), a CLI that
lists the DNS zones of a Cloudflare account page by page and writes the
plain-text DNS export of every zone to `./domains/{name}.txt`.

Network, environment and filesystem are modelled as explicit oracles:
* `getEnv` maps variable names to their values after dotenv loading,
* `api : Nat → ListingReply` gives the provider's answer to the listing
  request for a given `page` query value,
* `ExportEnv` gives the provider's answer to one export request together
  with the success of the local file operations,
* `Fs := String → Option String` is the file system (path to contents).

Every `process::exit(1)` in the source is modelled as an error value of a
dedicated inductive type, threaded to the top; the loop of `get_domains`
gets explicit fuel (`none` = fuel exhausted, an artefact of the embedding
that no theorem relies on).
-/

namespace CfExport

/-- Mirrors `struct Domain { id: String, name: String }`. -/
structure Domain where
  id : String
  name : String
deriving Repr, DecidableEq

/-- Mirrors `struct ResultInfo { page, total_pages, count, total_count : u32 }`.
u32 values are carried as `Nat`; the JSON decoder enforces the `< 2^32` range. -/
structure ResultInfo where
  page : Nat
  total_pages : Nat
  count : Nat
  total_count : Nat
deriving Repr, DecidableEq

/-- Mirrors `struct CloudflareError { message: String }`. -/
structure CloudflareError where
  message : String
deriving Repr, DecidableEq

/-- Mirrors `struct CloudflareResponse { success, result, result_info, errors }`.
All four fields are plain (non-`Option`) fields, exactly as in the source. -/
structure CloudflareResponse where
  success : Bool
  result : List Domain
  result_info : ResultInfo
  errors : List CloudflareError
deriving Repr, DecidableEq

/-! ### JSON values and the serde-derived decoders

`response.json::<CloudflareResponse>()` uses serde's derived deserializer:
a struct decodes from a JSON object; every field must appear exactly once
(duplicate known field = error, missing field = error); unknown fields are
ignored; `u32` accepts integers in `[0, 2^32)`. `Json.num` carries `Int`
(non-integral numbers would be rejected by the `u32`/struct decoders
anyway and never appear in the claims). -/

inductive Json where
  | null : Json
  | bool (b : Bool) : Json
  | num (n : Int) : Json
  | str (s : String) : Json
  | arr (xs : List Json) : Json
  | obj (fields : List (String × Json)) : Json

def decodeBool : Json → Option Bool
  | .bool b => some b
  | _ => none

def decodeString : Json → Option String
  | .str s => some s
  | _ => none

def decodeU32 : Json → Option Nat
  | .num n => if 0 ≤ n ∧ n < 2 ^ 32 then some n.toNat else none
  | _ => none

/-- Field collector for `Domain` (serde visit_map). -/
def decodeDomainFields : List (String × Json) → Option String → Option String →
    Option Domain
  | [], ids, names =>
    match ids, names with
    | some i, some n => some ⟨i, n⟩
    | _, _ => none
  | (k, v) :: rest, ids, names =>
    if k = "id" then
      match ids with
      | some _ => none
      | none => (decodeString v).bind fun i => decodeDomainFields rest (some i) names
    else if k = "name" then
      match names with
      | some _ => none
      | none => (decodeString v).bind fun n => decodeDomainFields rest ids (some n)
    else decodeDomainFields rest ids names

def decodeDomain : Json → Option Domain
  | .obj fields => decodeDomainFields fields none none
  | _ => none

/-- Field collector for `ResultInfo` (serde visit_map). -/
def decodeResultInfoFields : List (String × Json) → Option Nat → Option Nat →
    Option Nat → Option Nat → Option ResultInfo
  | [], ps, tps, cs, tcs =>
    match ps, tps, cs, tcs with
    | some p, some tp, some c, some tc => some ⟨p, tp, c, tc⟩
    | _, _, _, _ => none
  | (k, v) :: rest, ps, tps, cs, tcs =>
    if k = "page" then
      match ps with
      | some _ => none
      | none => (decodeU32 v).bind fun p => decodeResultInfoFields rest (some p) tps cs tcs
    else if k = "total_pages" then
      match tps with
      | some _ => none
      | none => (decodeU32 v).bind fun tp => decodeResultInfoFields rest ps (some tp) cs tcs
    else if k = "count" then
      match cs with
      | some _ => none
      | none => (decodeU32 v).bind fun c => decodeResultInfoFields rest ps tps (some c) tcs
    else if k = "total_count" then
      match tcs with
      | some _ => none
      | none => (decodeU32 v).bind fun tc => decodeResultInfoFields rest ps tps cs (some tc)
    else decodeResultInfoFields rest ps tps cs tcs

def decodeResultInfo : Json → Option ResultInfo
  | .obj fields => decodeResultInfoFields fields none none none none
  | _ => none

def decodeCloudflareError : Json → Option CloudflareError
  | .obj fields =>
    let rec go : List (String × Json) → Option String → Option CloudflareError
      | [], some m => some ⟨m⟩
      | [], none => none
      | (k, v) :: rest, ms =>
        if k = "message" then
          match ms with
          | some _ => none
          | none => (decodeString v).bind fun m => go rest (some m)
        else go rest ms
    go fields none
  | _ => none

def decodeList (f : Json → Option α) : Json → Option (List α)
  | .arr xs => xs.mapM f
  | _ => none

/-- Field collector for `CloudflareResponse` (serde visit_map). -/
def decodeCFFields : List (String × Json) → Option Bool → Option (List Domain) →
    Option ResultInfo → Option (List CloudflareError) → Option CloudflareResponse
  | [], ss, rs, ris, es =>
    match ss, rs, ris, es with
    | some s, some r, some ri, some e => some ⟨s, r, ri, e⟩
    | _, _, _, _ => none
  | (k, v) :: rest, ss, rs, ris, es =>
    if k = "success" then
      match ss with
      | some _ => none
      | none => (decodeBool v).bind fun s => decodeCFFields rest (some s) rs ris es
    else if k = "result" then
      match rs with
      | some _ => none
      | none => (decodeList decodeDomain v).bind fun r => decodeCFFields rest ss (some r) ris es
    else if k = "result_info" then
      match ris with
      | some _ => none
      | none => (decodeResultInfo v).bind fun ri => decodeCFFields rest ss rs (some ri) es
    else if k = "errors" then
      match es with
      | some _ => none
      | none =>
        (decodeList decodeCloudflareError v).bind fun e => decodeCFFields rest ss rs ris (some e)
    else decodeCFFields rest ss rs ris es

/-- `response.json::<CloudflareResponse>()` on an already-parsed JSON value. -/
def decodeCloudflareResponse : Json → Option CloudflareResponse
  | .obj fields => decodeCFFields fields none none none none
  | _ => none

/-! ### HTTP client construction (`create_client`) -/

/-- Validity of one character for `reqwest::header::HeaderValue::from_str`
(the http crate accepts horizontal tab and every byte in `[32, 255]` except
DEL; a non-ASCII `Char` encodes to bytes ≥ 0x80, all of which are accepted,
so the byte-level rule coincides with this character-level one). -/
def headerCharOk (c : Char) : Bool :=
  c = '\t' || (32 ≤ c.toNat && c.toNat ≠ 127)

/-- `HeaderValue::from_str` succeeds exactly on these strings. -/
def headerValueOk (s : String) : Bool :=
  s.toList.all headerCharOk

/-- The `process::exit(1)` sites of `create_client`. -/
inductive ClientExit where
  | missingKey : ClientExit
  | emptyOrNullKey : ClientExit
  | missingEmail : ClientExit
  | emptyOrNullEmail : ClientExit
  | invalidEmailHeader : ClientExit
  | invalidKeyHeader : ClientExit
deriving Repr, DecidableEq

/-- `HeaderMap::insert`: replaces any existing entry with the same name. -/
def headerInsert (hs : List (String × String)) (name value : String) :
    List (String × String) :=
  hs.filter (fun p => p.1 ≠ name) ++ [(name, value)]

/-- The observable part of the built `reqwest::Client`: its default headers,
attached to every request it sends. -/
structure ClientModel where
  default_headers : List (String × String)
deriving Repr, DecidableEq

/-- `create_client()`. `getEnv` is `std::env::var` after dotenv loading.
The `Client::builder().build()` call itself is opaque library code that
cannot fail once the headers are built, so the model returns the headers. -/
def create_client (getEnv : String → Option String) : Except ClientExit ClientModel :=
  match getEnv "CLOUDFLARE_API_KEY" with
  | none => .error .missingKey
  | some key =>
    if key.isEmpty || key == "NULL" then .error .emptyOrNullKey
    else
      match getEnv "CLOUDFLARE_USER_EMAIL" with
      | none => .error .missingEmail
      | some email =>
        if email.isEmpty || email == "NULL" then .error .emptyOrNullEmail
        else if !headerValueOk email then .error .invalidEmailHeader
        else if !headerValueOk key then .error .invalidKeyHeader
        else
          .ok ⟨headerInsert
                (headerInsert
                  (headerInsert [] "X-Auth-Email" email)
                  "X-Auth-Key" key)
                "Content-Type" "application/json"⟩

/-! ### Credential resolver (`check_environment`) -/

/-- The `process::exit(1)` sites of `check_environment`. -/
inductive CheckExit where
  | customEnvNotFound : CheckExit
  | customEnvLoadFailed : CheckExit
  | defaultEnvMissing : CheckExit
  | missingKey : CheckExit
  | missingEmail : CheckExit
  | placeholderNull : CheckExit
deriving Repr, DecidableEq

/-- The process environment as `check_environment` sees it:
`args` is `env::args()` (program name first), `fileExists` is
`Path::new(p).exists()`, `loadFromPath p` is the success of
`dotenv::from_path(p)`, `defaultLoadOk` the success of `dotenv()`, and
`getEnv` is `env::var` after whichever load ran. -/
structure EnvWorld where
  args : List String
  fileExists : String → Bool
  loadFromPath : String → Bool
  defaultLoadOk : Bool
  getEnv : String → Option String

/-- `check_environment()`: load the env file, require both variables to be
present, and reject the `.env.example` placeholder value `"NULL"`.
Note: this gate does NOT reject the empty string (only `create_client`
does, later but still before any request is sent). -/
def check_environment (w : EnvWorld) : Except CheckExit Unit :=
  match w.args with
  | _ :: envPath :: _ =>
    if w.fileExists envPath then
      if w.loadFromPath envPath then checkVars w else .error .customEnvLoadFailed
    else .error .customEnvNotFound
  | _ =>
    if w.defaultLoadOk then checkVars w else .error .defaultEnvMissing
where
  checkVars (w : EnvWorld) : Except CheckExit Unit :=
    match w.getEnv "CLOUDFLARE_API_KEY" with
    | none => .error .missingKey
    | some api_key =>
      match w.getEnv "CLOUDFLARE_USER_EMAIL" with
      | none => .error .missingEmail
      | some email =>
        if api_key == "NULL" || email == "NULL" then .error .placeholderNull
        else .ok ()

/-! ### Zone lister (`get_domains`) -/

/-- Outcome of one listing request `GET zones?page=p`.
`netErr st` is a `reqwest::Error` from `.send()`; `st` is `e.status()`
(`e.is_status()` holds exactly when a status is present). `httpOk body` is
an HTTP response whose body parsed as JSON (`response.json` first parses,
then decodes; a body that is not JSON at all is the `decodeError` case and
can be represented by any `body` with `decodeCloudflareResponse body = none`). -/
inductive ListingReply where
  | netErr (st : Option Nat) : ListingReply
  | httpOk (body : Json) : ListingReply

/-- The `process::exit(1)` sites reachable from `get_domains`. -/
inductive GdExit where
  | clientExit (e : ClientExit) : GdExit
  | authError : GdExit
  | connectError : GdExit
  | decodeError : GdExit
  | apiError (messages : List String) : GdExit
deriving Repr, DecidableEq

/-- The `loop` of `get_domains`, with explicit fuel (`none` = fuel ran out,
an artefact of the embedding). Returns the pages requested, in order, and
either the exit taken or the accumulated domains. -/
def getDomainsLoop (api : Nat → ListingReply) :
    Nat → Nat → List Nat → List Domain →
    Option (List Nat × Except GdExit (List Domain))
  | 0, _, _, _ => none
  | fuel + 1, current_page, pages, all_domains =>
    let pages := pages ++ [current_page]
    match api current_page with
    | .netErr st =>
      match st with
      | some s =>
        if s = 401 ∨ s = 403 then some (pages, .error .authError)
        else some (pages, .error .connectError)
      | none => some (pages, .error .connectError)
    | .httpOk body =>
      match decodeCloudflareResponse body with
      | none => some (pages, .error .decodeError)
      | some cf =>
        if !cf.success then
          some (pages, .error (.apiError (cf.errors.map CloudflareError.message)))
        else
          let all_domains := all_domains ++ cf.result
          if cf.result_info.total_pages ≤ cf.result_info.page then
            some (pages, .ok all_domains)
          else
            getDomainsLoop api fuel (cf.result_info.page + 1) pages all_domains

/-- `get_domains()`: builds a client (credential re-validation happens here,
before any request), then pages through `GET zones?page=N` starting at 1. -/
def get_domains (getEnv : String → Option String) (api : Nat → ListingReply)
    (fuel : Nat) : Option (List Nat × Except GdExit (List Domain)) :=
  match create_client getEnv with
  | .error e => some ([], .error (.clientExit e))
  | .ok _ => getDomainsLoop api fuel 1 [] []

/-! ### Export writer (`export_dns`) -/

/-- The file system: absolute map from path to file contents. -/
def Fs : Type := String → Option String

/-- Writing `content` at `path` (used for both the truncation performed by
`File::create` and the subsequent `write_all`). -/
def fsWrite (fs : Fs) (path content : String) : Fs :=
  fun p => if p = path then some content else fs p

/-- Outcome of one export request `GET zones/{id}/dns_records/export`,
plus the success of the local file operations for this domain:
`textOk` is the success of `response.text()`, `createOk` of
`File::create`, `writeOk` of `file.write_all`. -/
structure ExportEnv where
  reply : Option (Nat × Bool × String)
  createOk : Bool
  writeOk : Bool

/-- `StatusCode::is_success()`: 2xx. -/
def isSuccessStatus (s : Nat) : Bool :=
  200 ≤ s && s ≤ 299

/-- The `Err` returns of `export_dns` (each is preceded by a printed,
domain-specific message; propagated by `?` in `main`). -/
inductive ExportErr where
  | fetchFailed (name : String) : ExportErr
  | badStatus (name : String) (status : Nat) : ExportErr
  | readFailed (name : String) : ExportErr
  | createFailed (path : String) : ExportErr
  | writeFailed (name : String) : ExportErr
deriving Repr, DecidableEq

/-- The output path `./domains/{domain.name}.txt`. -/
def exportPath (d : Domain) : String :=
  "./domains/" ++ d.name ++ ".txt"

/-- `export_dns(&domain)`: build a client (outer `Except` is the
`process::exit` taken inside `create_client`), send the export request,
check the status, read the body as text, `File::create` (truncates any
existing file) and `write_all` the body verbatim. A `write_all` failure
leaves the file truncated by the preceding `File::create`. -/
def export_dns (getEnv : String → Option String) (env : ExportEnv) (fs : Fs)
    (d : Domain) : Except ClientExit (Fs × Except ExportErr Unit) :=
  match create_client getEnv with
  | .error e => .error e
  | .ok _ =>
    .ok <|
      match env.reply with
      | none => (fs, .error (.fetchFailed d.name))
      | some (status, textOk, body) =>
        if !isSuccessStatus status then
          (fs, .error (.badStatus d.name status))
        else if !textOk then
          (fs, .error (.readFailed d.name))
        else if !env.createOk then
          (fs, .error (.createFailed (exportPath d)))
        else if !env.writeOk then
          (fsWrite fs (exportPath d) "", .error (.writeFailed d.name))
        else
          (fsWrite fs (exportPath d) body, .ok ())

/-! ### Orchestration (`main`) -/

/-- Outcome of the `for domain in domains { export_dns(&domain).await?; }`
loop: all exports succeeded, or the first `Err` was propagated by `?`, or
`export_dns` hit a `process::exit` inside `create_client`. -/
inductive BatchOutcome where
  | allOk : BatchOutcome
  | failed (e : ExportErr) : BatchOutcome
  | exited (e : ClientExit) : BatchOutcome
deriving Repr, DecidableEq

/-- The per-domain export loop of `main`. Returns the domains for which an
export was attempted (in order), the final file system, and the outcome. -/
def exportAll (getEnv : String → Option String) (envs : Domain → ExportEnv) :
    List Domain → Fs → List Domain × Fs × BatchOutcome
  | [], fs => ([], fs, .allOk)
  | d :: rest, fs =>
    match export_dns getEnv (envs d) fs d with
    | .error e => ([d], fs, .exited e)
    | .ok (fs', .error e) => ([d], fs', .failed e)
    | .ok (fs', .ok ()) =>
      let (tried, fs'', out) := exportAll getEnv envs rest fs'
      (d :: tried, fs'', out)

/-- The two kinds of outward-visible requests, in the order they are sent. -/
inductive Event where
  | listReq (page : Nat) : Event
  | exportReq (d : Domain) : Event
deriving Repr, DecidableEq

/-- The non-zero process exits of a whole run. -/
inductive ProcExit where
  | envExit (e : CheckExit) : ProcExit
  | listExit (e : GdExit) : ProcExit
  | mkdirFailed : ProcExit
  | exportClientExit (e : ClientExit) : ProcExit
  | exportFailed (e : ExportErr) : ProcExit
deriving Repr, DecidableEq

/-- The whole outside world of one run. -/
structure World where
  env : EnvWorld
  api : Nat → ListingReply
  envs : Domain → ExportEnv
  fs0 : Fs
  domainsDirExists : Bool
  mkdirOk : Bool

/-- `main()`: check the environment, fetch all domains, create `./domains`
if absent, export each domain in order, stopping at the first failure.
Returns the request trace, the final file system and the process outcome
(`none` = listing fuel ran out, an artefact of the embedding). -/
def mainRun (w : World) (fuel : Nat) :
    Option (List Event × Fs × Except ProcExit Unit) :=
  match check_environment w.env with
  | .error e => some ([], w.fs0, .error (.envExit e))
  | .ok () =>
    match get_domains w.env.getEnv w.api fuel with
    | none => none
    | some (pages, .error e) => some (pages.map Event.listReq, w.fs0, .error (.listExit e))
    | some (pages, .ok domains) =>
      if !w.domainsDirExists && !w.mkdirOk then
        some (pages.map Event.listReq, w.fs0, .error .mkdirFailed)
      else
        let (tried, fs, out) := exportAll w.env.getEnv w.envs domains w.fs0
        some (pages.map Event.listReq ++ tried.map Event.exportReq, fs,
          match out with
          | .allOk => .ok ()
          | .failed e => .error (.exportFailed e)
          | .exited e => .error (.exportClientExit e))

/-! ### Concrete worlds used by the witnesses -/

/-- Environment holding one valid credential pair. -/
def goodEnv : String → Option String := fun v =>
  if v = "CLOUDFLARE_API_KEY" then some "testkey"
  else if v = "CLOUDFLARE_USER_EMAIL" then some "user@example.com"
  else none

/-- The headers `create_client goodEnv` builds. -/
def goodClient : ClientModel :=
  ⟨[("X-Auth-Email", "user@example.com"), ("X-Auth-Key", "testkey"),
    ("Content-Type", "application/json")]⟩

/-- An empty file system. -/
def emptyFs : Fs := fun _ => none

def wDomain : Domain := ⟨"abc", "example.com"⟩

/-- Export environment answering 403. -/
def denyExportEnv : ExportEnv := ⟨some (403, true, "forbidden"), true, true⟩

/-- Export environment answering 200 with a fixed zone-file body. -/
def okExportEnv : ExportEnv := ⟨some (200, true, "A example.com 1.2.3.4"), true, true⟩

/-- A listing body: well-formed envelope with `success = false`. -/
def errBody : Json :=
  .obj [("success", .bool false), ("result", .arr []),
        ("result_info", .obj [("page", .num 1), ("total_pages", .num 1),
                              ("count", .num 0), ("total_count", .num 0)]),
        ("errors", .arr [.obj [("message", .str "Invalid API key")]])]

def errApi : Nat → ListingReply := fun _ => .httpOk errBody

def netApi : Nat → ListingReply := fun _ => .netErr (some 401)

/-! ### C6: default headers of the built client -/

/-- C6: for every credential pair accepted by the validation gates
(present, non-empty, not `"NULL"`, header-encodable), `create_client`
builds a client whose default headers are exactly `X-Auth-Email = email`,
`X-Auth-Key = api_key` and `Content-Type = application/json`, and nothing
else. -/
theorem create_client_exact_headers (getEnv : String → Option String)
    (key email : String)
    (hk : getEnv "CLOUDFLARE_API_KEY" = some key)
    (he : getEnv "CLOUDFLARE_USER_EMAIL" = some email)
    (hk1 : (key.isEmpty || key == "NULL") = false)
    (he1 : (email.isEmpty || email == "NULL") = false)
    (he2 : headerValueOk email = true)
    (hk2 : headerValueOk key = true) :
    create_client getEnv =
      .ok ⟨[("X-Auth-Email", email), ("X-Auth-Key", key),
            ("Content-Type", "application/json")]⟩ := by
  simp [create_client, hk, he, hk1, he1, hk2, he2, headerInsert]

/-- C6 witness: a concrete credential pair. -/
theorem create_client_exact_headers_witness :
    create_client goodEnv =
      .ok ⟨[("X-Auth-Email", "user@example.com"), ("X-Auth-Key", "testkey"),
            ("Content-Type", "application/json")]⟩ :=
  create_client_exact_headers goodEnv "testkey" "user@example.com"
    rfl rfl (by decide) (by decide) (by decide) (by decide)

/-! ### C4: non-2xx export leaves the file system untouched -/

/-- C4: when the export request answers with a non-2xx status,
`export_dns` returns the failure recording the status and the domain
name, and the file system is returned unchanged (no file created or
modified). -/
theorem export_dns_non2xx_leaves_fs (getEnv : String → Option String)
    (c : ClientModel) (env : ExportEnv) (fs : Fs) (d : Domain)
    (status : Nat) (textOk : Bool) (body : String)
    (hc : create_client getEnv = .ok c)
    (hr : env.reply = some (status, textOk, body))
    (hs : isSuccessStatus status = false) :
    export_dns getEnv env fs d = .ok (fs, .error (.badStatus d.name status)) := by
  simp [export_dns, hc, hr, hs]

/-- C4 witness: export answered 403 on an empty file system. -/
theorem export_dns_non2xx_leaves_fs_witness :
    export_dns goodEnv denyExportEnv emptyFs wDomain =
      .ok (emptyFs, .error (.badStatus "example.com" 403)) :=
  export_dns_non2xx_leaves_fs goodEnv goodClient denyExportEnv emptyFs wDomain
    403 true "forbidden" rfl rfl (by decide)

/-! ### C2: 2xx export writes the body byte for byte -/

/-- C2: when the export request answers 2xx with body `body` (and the
local file operations succeed), `export_dns` succeeds and the resulting
file system holds exactly `body` at `./domains/{name}.txt` — whatever was
there before is entirely replaced — and every other path is untouched. -/
theorem export_dns_writes_body (getEnv : String → Option String)
    (c : ClientModel) (env : ExportEnv) (fs : Fs) (d : Domain)
    (status : Nat) (body : String)
    (hc : create_client getEnv = .ok c)
    (hr : env.reply = some (status, true, body))
    (hs : isSuccessStatus status = true)
    (hcr : env.createOk = true) (hw : env.writeOk = true) :
    export_dns getEnv env fs d = .ok (fsWrite fs (exportPath d) body, .ok ()) ∧
    fsWrite fs (exportPath d) body (exportPath d) = some body ∧
    ∀ q, q ≠ exportPath d → fsWrite fs (exportPath d) body q = fs q := by
  refine ⟨?_, ?_, ?_⟩
  · simp [export_dns, hc, hr, hs, hcr, hw]
  · simp [fsWrite]
  · intro q hq
    simp [fsWrite, hq]

/-- C2 witness: a 200 answer with a concrete zone-file body, over a file
system where the target file already exists with stale content. -/
theorem export_dns_writes_body_witness :
    export_dns goodEnv okExportEnv
        (fsWrite emptyFs "./domains/example.com.txt" "OLD") wDomain =
      .ok (fsWrite (fsWrite emptyFs "./domains/example.com.txt" "OLD")
            (exportPath wDomain) "A example.com 1.2.3.4", .ok ()) ∧
    fsWrite (fsWrite emptyFs "./domains/example.com.txt" "OLD")
        (exportPath wDomain) "A example.com 1.2.3.4" (exportPath wDomain) =
      some "A example.com 1.2.3.4" :=
  let h := export_dns_writes_body goodEnv goodClient okExportEnv
    (fsWrite emptyFs "./domains/example.com.txt" "OLD") wDomain
    200 "A example.com 1.2.3.4" rfl rfl (by decide) rfl rfl
  ⟨h.1, h.2.1⟩

/-! ### C3: `success = false` on a listing page -/

/-- C3: if the listing response for page `p` decodes but reports
`success = false`, the loop makes no further request (the returned page
trace ends at `p`) and takes the fatal exit carrying every
`errors[].message`, in order. -/
theorem listing_unsuccessful_stops (api : Nat → ListingReply)
    (fuel p : Nat) (pages : List Nat) (acc : List Domain)
    (body : Json) (cf : CloudflareResponse)
    (hapi : api p = .httpOk body)
    (hdec : decodeCloudflareResponse body = some cf)
    (hsucc : cf.success = false) :
    getDomainsLoop api (fuel + 1) p pages acc =
      some (pages ++ [p],
        .error (.apiError (cf.errors.map CloudflareError.message))) := by
  simp [getDomainsLoop, hapi, hdec, hsucc]

/-- C3 witness: a concrete unsuccessful envelope on page 1. -/
theorem listing_unsuccessful_stops_witness :
    getDomainsLoop errApi 1 1 [] [] =
      some ([1], .error (.apiError ["Invalid API key"])) :=
  listing_unsuccessful_stops errApi 0 1 [] [] errBody
    ⟨false, [], ⟨1, 1, 0, 0⟩, [⟨"Invalid API key"⟩]⟩ rfl (by decide) rfl

/-! ### C8: classification of listing network failures -/

/-- C8: a listing request that fails with a `reqwest` error carrying
status 401 or 403 takes the authentication exit; a failure carrying any
other status, or no status, takes the generic connectivity exit. Either
way the loop stops at that request. -/
theorem listing_net_error_classified (api : Nat → ListingReply)
    (fuel p : Nat) (pages : List Nat) (acc : List Domain)
    (st : Option Nat) (hapi : api p = .netErr st) :
    ((st = some 401 ∨ st = some 403) →
      getDomainsLoop api (fuel + 1) p pages acc =
        some (pages ++ [p], .error .authError)) ∧
    (¬ (st = some 401 ∨ st = some 403) →
      getDomainsLoop api (fuel + 1) p pages acc =
        some (pages ++ [p], .error .connectError)) := by
  constructor
  · rintro (rfl | rfl) <;> simp [getDomainsLoop, hapi]
  · intro h
    match st with
    | none => simp [getDomainsLoop, hapi]
    | some s =>
      have hs : ¬ (s = 401 ∨ s = 403) := by
        rintro (rfl | rfl) <;> exact h (by simp)
      simp [getDomainsLoop, hapi, hs]

/-- C8 witness: a 401-carrying failure on page 1 takes the
authentication exit. -/
theorem listing_net_error_classified_witness :
    getDomainsLoop netApi 1 1 [] [] = some ([1], .error .authError) :=
  (listing_net_error_classified netApi 0 1 [] [] (some 401) rfl).1 (Or.inl rfl)

/-! ### C10: all four envelope fields are mandatory -/

/-- `l` has an entry with key `key`. -/
def hasKey (key : String) (l : List (String × Json)) : Prop :=
  ∃ p ∈ l, p.1 = key

instance (key : String) (l : List (String × Json)) : Decidable (hasKey key l) := by
  unfold hasKey
  infer_instance

lemma hasKey_cons_of (key : String) (q : String × Json) (l : List (String × Json))
    (h : hasKey key l) : hasKey key (q :: l) := by
  obtain ⟨p, hp, hk⟩ := h
  exact ⟨p, List.mem_cons_of_mem _ hp, hk⟩

/-- A successful decode of the envelope saw every one of the four fields:
each builder slot was either already filled or gets filled by an entry of
the list. -/
lemma decodeCFFields_some_keys :
    ∀ (l : List (String × Json)) (ss : Option Bool) (rs : Option (List Domain))
      (ris : Option ResultInfo) (es : Option (List CloudflareError))
      (cf : CloudflareResponse),
      decodeCFFields l ss rs ris es = some cf →
      (ss.isSome = true ∨ hasKey "success" l) ∧
      (rs.isSome = true ∨ hasKey "result" l) ∧
      (ris.isSome = true ∨ hasKey "result_info" l) ∧
      (es.isSome = true ∨ hasKey "errors" l)
  | [], ss, rs, ris, es, cf, h => by
    cases ss <;> cases rs <;> cases ris <;> cases es <;> simp_all [decodeCFFields]
  | (k, v) :: rest, ss, rs, ris, es, cf, h => by
    simp only [decodeCFFields] at h
    by_cases h1 : k = "success"
    · rw [if_pos h1] at h
      cases ss with
      | some s => simp at h
      | none =>
        obtain ⟨b, _, h⟩ := Option.bind_eq_some.mp h
        have ih := decodeCFFields_some_keys rest (some b) rs ris es cf h
        exact ⟨Or.inr ⟨(k, v), List.mem_cons_self _ _, h1⟩,
          ih.2.1.imp id (hasKey_cons_of _ _ _),
          ih.2.2.1.imp id (hasKey_cons_of _ _ _),
          ih.2.2.2.imp id (hasKey_cons_of _ _ _)⟩
    · rw [if_neg h1] at h
      by_cases h2 : k = "result"
      · rw [if_pos h2] at h
        cases rs with
        | some r => simp at h
        | none =>
          obtain ⟨r, _, h⟩ := Option.bind_eq_some.mp h
          have ih := decodeCFFields_some_keys rest ss (some r) ris es cf h
          exact ⟨ih.1.imp id (hasKey_cons_of _ _ _),
            Or.inr ⟨(k, v), List.mem_cons_self _ _, h2⟩,
            ih.2.2.1.imp id (hasKey_cons_of _ _ _),
            ih.2.2.2.imp id (hasKey_cons_of _ _ _)⟩
      · rw [if_neg h2] at h
        by_cases h3 : k = "result_info"
        · rw [if_pos h3] at h
          cases ris with
          | some ri => simp at h
          | none =>
            obtain ⟨ri, _, h⟩ := Option.bind_eq_some.mp h
            have ih := decodeCFFields_some_keys rest ss rs (some ri) es cf h
            exact ⟨ih.1.imp id (hasKey_cons_of _ _ _),
              ih.2.1.imp id (hasKey_cons_of _ _ _),
              Or.inr ⟨(k, v), List.mem_cons_self _ _, h3⟩,
              ih.2.2.2.imp id (hasKey_cons_of _ _ _)⟩
        · rw [if_neg h3] at h
          by_cases h4 : k = "errors"
          · rw [if_pos h4] at h
            cases es with
            | some e => simp at h
            | none =>
              obtain ⟨e, _, h⟩ := Option.bind_eq_some.mp h
              have ih := decodeCFFields_some_keys rest ss rs ris (some e) cf h
              exact ⟨ih.1.imp id (hasKey_cons_of _ _ _),
                ih.2.1.imp id (hasKey_cons_of _ _ _),
                ih.2.2.1.imp id (hasKey_cons_of _ _ _),
                Or.inr ⟨(k, v), List.mem_cons_self _ _, h4⟩⟩
          · rw [if_neg h4] at h
            have ih := decodeCFFields_some_keys rest ss rs ris es cf h
            exact ⟨ih.1.imp id (hasKey_cons_of _ _ _),
              ih.2.1.imp id (hasKey_cons_of _ _ _),
              ih.2.2.1.imp id (hasKey_cons_of _ _ _),
              ih.2.2.2.imp id (hasKey_cons_of _ _ _)⟩

/-- C10: a listing body that lacks any of `success`, `result`,
`result_info` or `errors` (in particular a well-formed error envelope
without `result_info`) fails to decode into `CloudflareResponse`, so the
loop takes the decode-failure exit for that page — never the
error-message-printing exit. -/
theorem decode_requires_all_fields (fields : List (String × Json))
    (hmiss : ¬ hasKey "success" fields ∨ ¬ hasKey "result" fields ∨
             ¬ hasKey "result_info" fields ∨ ¬ hasKey "errors" fields) :
    decodeCloudflareResponse (.obj fields) = none ∧
    ∀ (api : Nat → ListingReply) (fuel p : Nat) (pages : List Nat)
      (acc : List Domain),
      api p = .httpOk (.obj fields) →
      getDomainsLoop api (fuel + 1) p pages acc =
        some (pages ++ [p], .error .decodeError) := by
  have hdec : decodeCloudflareResponse (.obj fields) = none := by
    cases hd : decodeCloudflareResponse (.obj fields) with
    | none => rfl
    | some cf =>
      have hkeys := decodeCFFields_some_keys fields none none none none cf
        (by simpa [decodeCloudflareResponse] using hd)
      simp only [Option.isSome_none, Bool.false_eq_true, false_or] at hkeys
      rcases hmiss with h | h | h | h
      · exact absurd hkeys.1 h
      · exact absurd hkeys.2.1 h
      · exact absurd hkeys.2.2.1 h
      · exact absurd hkeys.2.2.2 h
  refine ⟨hdec, ?_⟩
  intro api fuel p pages acc hapi
  simp [getDomainsLoop, hapi, hdec]

/-- A well-formed `success = false` envelope from which `result_info` is
absent. -/
def noInfoFields : List (String × Json) :=
  [("success", .bool false), ("result", .arr []),
   ("errors", .arr [.obj [("message", .str "Invalid API key")]])]

/-- C10 witness: the error envelope without `result_info` does not decode. -/
theorem decode_requires_all_fields_witness :
    decodeCloudflareResponse (.obj noInfoFields) = none :=
  (decode_requires_all_fields noInfoFields
    (Or.inr (Or.inr (Or.inl (by decide))))).1

/-! ### C5: the first export failure halts the batch -/

/-- The per-domain loop attempted exactly `tried` and stopped with a
propagated export failure. -/
def haltsAt (getEnv : String → Option String) (envs : Domain → ExportEnv)
    (doms : List Domain) (fs : Fs) (tried : List Domain) : Prop :=
  ∃ (fs' : Fs) (e : ExportErr),
    exportAll getEnv envs doms fs = (tried, fs', .failed e)

/-- C5: if every domain before `d` exports successfully and `d`'s export
fails, the orchestration loop attempts exactly the domains up to and
including `d` — the domains after `d` are never attempted — and the run
ends with the propagated failure (a non-zero exit of `main`). -/
theorem first_export_failure_halts (getEnv : String → Option String)
    (envs : Domain → ExportEnv) (pre : List Domain) (d : Domain)
    (post : List Domain) (fs : Fs)
    (hpre : ∀ d' ∈ pre, ∀ fs' : Fs, ∃ fs'' : Fs,
      export_dns getEnv (envs d') fs' d' = .ok (fs'', .ok ()))
    (hd : ∀ fs' : Fs, ∃ (fs'' : Fs) (e : ExportErr),
      export_dns getEnv (envs d) fs' d = .ok (fs'', .error e)) :
    haltsAt getEnv envs (pre ++ d :: post) fs (pre ++ [d]) := by
  induction pre generalizing fs with
  | nil =>
    obtain ⟨fs'', e, hde⟩ := hd fs
    exact ⟨fs'', e, by simp [exportAll, hde]⟩
  | cons q pre ih =>
    obtain ⟨fs1, hq⟩ := hpre q (List.mem_cons_self _ _) fs
    obtain ⟨fs', e, hrec⟩ :=
      ih fs1 (fun d' hm fs' => hpre d' (List.mem_cons_of_mem _ hm) fs')
    refine ⟨fs', e, ?_⟩
    show exportAll getEnv envs ((q :: pre) ++ d :: post) fs =
      ((q :: pre) ++ [d], fs', .failed e)
    rw [List.cons_append, exportAll, hq]
    simp [hrec]

def dom1 : Domain := ⟨"id1", "one.com"⟩
def dom2 : Domain := ⟨"id2", "two.com"⟩
def dom3 : Domain := ⟨"id3", "three.com"⟩

/-- Exports succeed for every domain except `dom2`, whose request is
answered 403. -/
def mixedEnvs : Domain → ExportEnv := fun d =>
  if d = dom2 then denyExportEnv else okExportEnv

/-- C5 witness: with `[dom1, dom2, dom3]` and `dom2` failing, only
`[dom1, dom2]` are attempted. -/
theorem first_export_failure_halts_witness :
    haltsAt goodEnv mixedEnvs [dom1, dom2, dom3] emptyFs [dom1, dom2] :=
  first_export_failure_halts goodEnv mixedEnvs [dom1] dom2 [dom3] emptyFs
    (by
      intro d' hm fs'
      have hd1 : d' = dom1 := by simpa using hm
      subst hd1
      exact ⟨_, rfl⟩)
    (fun fs' => ⟨fs', .badStatus "two.com" 403, rfl⟩)

/-! ### C9: empty or `"NULL"` credentials are rejected before any request -/

/-- The configuration source loads: either the custom path given as first
argument exists and parses, or no argument is given and the default
`.env` parses. -/
def envLoads (w : EnvWorld) : Bool :=
  match w.args with
  | _ :: p :: _ => w.fileExists p && w.loadFromPath p
  | _ => w.defaultLoadOk

lemma check_environment_of_loads (w : EnvWorld) (h : envLoads w = true) :
    check_environment w = check_environment.checkVars w := by
  obtain ⟨args, fe, lp, dl, ge⟩ := w
  rcases args with _ | ⟨a, _ | ⟨p, rest⟩⟩
  · simp only [envLoads] at h
    simp [check_environment, h]
  · simp only [envLoads] at h
    simp [check_environment, h]
  · simp only [envLoads, Bool.and_eq_true] at h
    simp [check_environment, h.1, h.2]

/-- The run stopped with an error before sending a single request (the
event trace is empty) and the file system is untouched. -/
def rejectedRun (w : World) (fuel : Nat) : Prop :=
  ∃ e : ProcExit, mainRun w fuel = some ([], w.fs0, .error e)

/-- C9: if `CLOUDFLARE_API_KEY` or `CLOUDFLARE_USER_EMAIL` holds the
empty string or the literal `"NULL"`, the run is rejected with a
diagnostic exit before any network request is issued (`"NULL"` by
`check_environment`, the empty string by `create_client`, which runs
before the first listing request). -/
theorem empty_or_null_credentials_rejected (w : World) (fuel : Nat)
    (v : String)
    (hload : envLoads w.env = true)
    (hcred : w.env.getEnv "CLOUDFLARE_API_KEY" = some v ∨
             w.env.getEnv "CLOUDFLARE_USER_EMAIL" = some v)
    (hval : v = "" ∨ v = "NULL") :
    rejectedRun w fuel := by
  have hce : check_environment w.env = check_environment.checkVars w.env :=
    check_environment_of_loads w.env hload
  cases hk : w.env.getEnv "CLOUDFLARE_API_KEY" with
  | none =>
    exact ⟨.envExit .missingKey,
      by simp [mainRun, hce, check_environment.checkVars, hk]⟩
  | some k =>
    cases hm : w.env.getEnv "CLOUDFLARE_USER_EMAIL" with
    | none =>
      exact ⟨.envExit .missingEmail,
        by simp [mainRun, hce, check_environment.checkVars, hk, hm]⟩
    | some m =>
      by_cases hnull : k = "NULL" ∨ m = "NULL"
      · have hb : (k == "NULL" || m == "NULL") = true := by
          rcases hnull with h | h <;> simp [h]
        exact ⟨.envExit .placeholderNull,
          by simp [mainRun, hce, check_environment.checkVars, hk, hm, hb]⟩
      · have hknN : k ≠ "NULL" := fun h => hnull (Or.inl h)
        have hmnN : m ≠ "NULL" := fun h => hnull (Or.inr h)
        have hb : (k == "NULL" || m == "NULL") = false := by
          simp [hknN, hmnN]
        have hv : v = "" := by
          rcases hval with rfl | rfl
          · rfl
          · exfalso
            rcases hcred with h | h
            · rw [hk] at h
              exact hknN (Option.some.inj h)
            · rw [hm] at h
              exact hmnN (Option.some.inj h)
        subst hv
        have hE : "".isEmpty = true := rfl
        rcases hcred with h | h
        · rw [hk] at h
          have hk0 : k = "" := Option.some.inj h
          subst hk0
          exact ⟨.listExit (.clientExit .emptyOrNullKey),
            by simp [mainRun, hce, check_environment.checkVars, hk, hm, hb,
              get_domains, create_client, hE, hknN, hmnN]⟩
        · rw [hm] at h
          have hm0 : m = "" := Option.some.inj h
          subst hm0
          by_cases hk0 : k = ""
          · subst hk0
            exact ⟨.listExit (.clientExit .emptyOrNullKey),
              by simp [mainRun, hce, check_environment.checkVars, hk, hm, hb,
                get_domains, create_client, hE, hknN, hmnN]⟩
          · have hkE : k.isEmpty = false := by
              rcases he : k.isEmpty with _ | _
              · rfl
              · exact absurd ((String.isEmpty_iff k).mp he) hk0
            exact ⟨.listExit (.clientExit .emptyOrNullEmail),
              by simp [mainRun, hce, check_environment.checkVars, hk, hm, hb,
                get_domains, create_client, hE, hkE, hknN, hmnN]⟩

/-- A world whose key is the `.env.example` placeholder `"NULL"`. -/
def nullWorld : World :=
  ⟨⟨["prog"], fun _ => false, fun _ => false, true,
    fun v =>
      if v = "CLOUDFLARE_API_KEY" then some "NULL"
      else if v = "CLOUDFLARE_USER_EMAIL" then some "user@example.com"
      else none⟩,
   netApi, fun _ => okExportEnv, emptyFs, true, true⟩

/-- C9 witness: the non-empty placeholder `"NULL"` is rejected with an
empty request trace. -/
theorem empty_or_null_credentials_rejected_witness :
    rejectedRun nullWorld 3 :=
  empty_or_null_credentials_rejected nullWorld 3 "NULL" rfl
    (Or.inl rfl) (Or.inr rfl)

/-! ### C1: pagination fetches pages 1..k and concatenates in order -/

/-- Loop invariant for an API that echoes the requested page number and
always reports `total_pages = k`: starting from page `p ≤ k` with enough
fuel, the loop requests exactly `p, p+1, …, k` and appends each page's
`result` in that order. -/
lemma getDomainsLoop_paginates (api : Nat → ListingReply) (body : Nat → Json)
    (results : Nat → List Domain) (cnt tot : Nat → Nat)
    (errs : Nat → List CloudflareError) (k : Nat)
    (H : ∀ p, 1 ≤ p → p ≤ k →
      api p = .httpOk (body p) ∧
      decodeCloudflareResponse (body p) =
        some ⟨true, results p, ⟨p, k, cnt p, tot p⟩, errs p⟩) :
    ∀ (fuel p : Nat) (pages : List Nat) (acc : List Domain),
      1 ≤ p → p ≤ k → k - p < fuel →
      getDomainsLoop api fuel p pages acc =
        some (pages ++ List.range' p (k + 1 - p),
          .ok (acc ++ ((List.range' p (k + 1 - p)).map results).flatten)) := by
  intro fuel
  induction fuel with
  | zero =>
    intro p pages acc _ _ hf
    omega
  | succ fuel ih =>
    intro p pages acc hp1 hp2 hf
    obtain ⟨hapi, hdec⟩ := H p hp1 hp2
    by_cases hpk : k ≤ p
    · have hp : p = k := le_antisymm hp2 hpk
      have h1 : k + 1 - p = 1 := by omega
      simp [getDomainsLoop, hapi, hdec, h1, hpk, List.range']
    · have hlt : p < k := lt_of_not_ge hpk
      have hrange : List.range' p (k + 1 - p) = p :: List.range' (p + 1) (k - p) := by
        have he : k + 1 - p = (k - p) + 1 := by omega
        rw [he, List.range'_succ]
      have hrec := ih (p + 1) (pages ++ [p]) (acc ++ results p)
        (by omega) (by omega) (by omega)
      have he2 : k + 1 - (p + 1) = k - p := by omega
      rw [he2] at hrec
      simp only [getDomainsLoop, hapi, hdec]
      simp [hpk, hrec, hrange]

/-- C1: whenever every listing response echoes the requested page number
and reports the same `total_pages = k ≥ 1` with `success = true`,
`get_domains` issues exactly `k` requests, with `page` query values
`1, 2, …, k` in that order, and returns the concatenation of the pages'
`result` arrays in page order (no de-duplication, no reordering). -/
theorem get_domains_paginates (getEnv : String → Option String)
    (c : ClientModel) (api : Nat → ListingReply) (body : Nat → Json)
    (results : Nat → List Domain) (cnt tot : Nat → Nat)
    (errs : Nat → List CloudflareError) (k fuel : Nat)
    (hc : create_client getEnv = .ok c)
    (hk : 1 ≤ k) (hfuel : k ≤ fuel)
    (H : ∀ p, 1 ≤ p → p ≤ k →
      api p = .httpOk (body p) ∧
      decodeCloudflareResponse (body p) =
        some ⟨true, results p, ⟨p, k, cnt p, tot p⟩, errs p⟩) :
    get_domains getEnv api fuel =
      some (List.range' 1 k, .ok (((List.range' 1 k).map results).flatten)) := by
  have h := getDomainsLoop_paginates api body results cnt tot errs k H fuel 1 [] []
    (le_refl 1) hk (by omega)
  simpa [get_domains, hc] using h

/-- Page-1 listing body: echoes page 1 of 2, one zone. -/
def pageBody1 : Json :=
  .obj [("success", .bool true),
        ("result", .arr [.obj [("id", .str "id1"), ("name", .str "one.com")]]),
        ("result_info", .obj [("page", .num 1), ("total_pages", .num 2),
                              ("count", .num 1), ("total_count", .num 2)]),
        ("errors", .arr [])]

/-- Page-2 listing body: echoes page 2 of 2, one zone. -/
def pageBody2 : Json :=
  .obj [("success", .bool true),
        ("result", .arr [.obj [("id", .str "id2"), ("name", .str "two.com")]]),
        ("result_info", .obj [("page", .num 2), ("total_pages", .num 2),
                              ("count", .num 1), ("total_count", .num 2)]),
        ("errors", .arr [])]

def pageBody (p : Nat) : Json := if p = 1 then pageBody1 else pageBody2

def pageApi : Nat → ListingReply := fun p => .httpOk (pageBody p)

def pageResults (p : Nat) : List Domain :=
  if p = 1 then [⟨"id1", "one.com"⟩] else [⟨"id2", "two.com"⟩]

/-- C1 witness: a concrete two-page listing. -/
theorem get_domains_paginates_witness :
    get_domains goodEnv pageApi 2 =
      some (List.range' 1 2, .ok (((List.range' 1 2).map pageResults).flatten)) :=
  get_domains_paginates goodEnv goodClient pageApi pageBody pageResults
    (fun _ => 1) (fun _ => 2) (fun _ => []) 2 2 rfl (by decide) (by decide)
    (by
      intro p h1 h2
      have hp : p = 1 ∨ p = 2 := by omega
      rcases hp with rfl | rfl
      · exact ⟨rfl, by decide⟩
      · exact ⟨rfl, by decide⟩)

/-! ### C7: the listing completes before the first export -/

/-- If the loop returns domains (instead of exiting), its last request got
a decodable, successful response whose `page ≥ total_pages` — the stopping
condition was reached. -/
lemma getDomainsLoop_ok_stop (api : Nat → ListingReply) :
    ∀ (fuel p : Nat) (pages : List Nat) (acc : List Domain)
      (pages' : List Nat) (doms : List Domain),
      getDomainsLoop api fuel p pages acc = some (pages', .ok doms) →
      ∃ q body cf, pages'.getLast? = some q ∧ api q = .httpOk body ∧
        decodeCloudflareResponse body = some cf ∧ cf.success = true ∧
        cf.result_info.total_pages ≤ cf.result_info.page := by
  intro fuel
  induction fuel with
  | zero =>
    intro p pages acc pages' doms h
    simp [getDomainsLoop] at h
  | succ fuel ih =>
    intro p pages acc pages' doms h
    simp only [getDomainsLoop] at h
    cases hapi : api p with
    | netErr st =>
      rw [hapi] at h
      cases st with
      | none => simp at h
      | some s =>
        by_cases hs : s = 401 ∨ s = 403
        · simp [hs] at h
        · simp [hs] at h
    | httpOk body =>
      simp only [hapi] at h
      cases hdec : decodeCloudflareResponse body with
      | none => simp [hdec] at h
      | some cf =>
        simp only [hdec] at h
        by_cases hsucc : cf.success = true
        · by_cases hstop : cf.result_info.total_pages ≤ cf.result_info.page
          · simp [hsucc, hstop] at h
            obtain ⟨h1, _⟩ := h
            refine ⟨p, body, cf, ?_, hapi, hdec, hsucc, hstop⟩
            rw [← h1]
            exact List.getLast?_concat _
          · simp [hsucc, hstop] at h
            exact ih _ _ _ _ _ h
        · have hf : cf.success = false := by
            cases hcc : cf.success
            · rfl
            · exact absurd hcc hsucc
          simp [hf] at h

/-- Lifting of the stop condition to `get_domains`. -/
lemma get_domains_ok_stop (getEnv : String → Option String)
    (api : Nat → ListingReply) (fuel : Nat) (pages : List Nat)
    (doms : List Domain)
    (h : get_domains getEnv api fuel = some (pages, .ok doms)) :
    ∃ q body cf, pages.getLast? = some q ∧ api q = .httpOk body ∧
      decodeCloudflareResponse body = some cf ∧ cf.success = true ∧
      cf.result_info.total_pages ≤ cf.result_info.page := by
  unfold get_domains at h
  cases hc : create_client getEnv with
  | error e =>
    rw [hc] at h
    simp at h
  | ok c =>
    rw [hc] at h
    exact getDomainsLoop_ok_stop api fuel 1 [] [] pages doms h

/-- The event trace of a run is all listing requests first, then all
export requests; and if any export request occurs at all, the listing
had already returned its complete zone collection, its last page having
reached the `page ≥ total_pages` stopping condition. -/
def seqTrace (w : World) (fuel : Nat) (events : List Event) : Prop :=
  ∃ pages tried,
    events = pages.map Event.listReq ++ tried.map Event.exportReq ∧
    (tried ≠ [] →
      ∃ doms, get_domains w.env.getEnv w.api fuel = some (pages, .ok doms) ∧
        ∃ q body cf, pages.getLast? = some q ∧ w.api q = .httpOk body ∧
          decodeCloudflareResponse body = some cf ∧ cf.success = true ∧
          cf.result_info.total_pages ≤ cf.result_info.page)

/-- C7: every run's request trace decomposes as listing requests followed
by export requests — no export before `get_domains` returns, no listing
request after the first export — and exports only happen once the
complete zone collection was returned with the stopping condition
reached. -/
theorem listing_completes_before_exports (w : World) (fuel : Nat)
    (events : List Event) (fs : Fs) (out : Except ProcExit Unit)
    (h : mainRun w fuel = some (events, fs, out)) :
    seqTrace w fuel events := by
  unfold mainRun at h
  cases hce : check_environment w.env with
  | error e =>
    rw [hce] at h
    simp only [Option.some.injEq, Prod.mk.injEq] at h
    obtain ⟨h1, _, _⟩ := h
    refine ⟨[], [], by simp [← h1], ?_⟩
    intro hne
    exact absurd rfl hne
  | ok u =>
    cases u
    rw [hce] at h
    cases hgd : get_domains w.env.getEnv w.api fuel with
    | none =>
      rw [hgd] at h
      exact absurd h (by simp)
    | some pr =>
      obtain ⟨pages, res⟩ := pr
      rw [hgd] at h
      cases res with
      | error e =>
        simp only [Option.some.injEq, Prod.mk.injEq] at h
        obtain ⟨h1, _, _⟩ := h
        refine ⟨pages, [], by simp [← h1], ?_⟩
        intro hne
        exact absurd rfl hne
      | ok doms =>
        by_cases hdir : (!w.domainsDirExists && !w.mkdirOk) = true
        · simp only [hdir, if_true] at h
          simp only [Option.some.injEq, Prod.mk.injEq] at h
          obtain ⟨h1, _, _⟩ := h
          refine ⟨pages, [], by simp [← h1], ?_⟩
          intro hne
          exact absurd rfl hne
        · rcases hEA : exportAll w.env.getEnv w.envs doms w.fs0 with ⟨tried, fs', out'⟩
          simp only [Bool.not_eq_true] at hdir
          simp only [hdir, Bool.false_eq_true, if_false, hEA,
            Option.some.injEq, Prod.mk.injEq] at h
          obtain ⟨h1, _, _⟩ := h
          refine ⟨pages, tried, by simp [← h1], ?_⟩
          intro _
          exact ⟨doms, hgd, get_domains_ok_stop w.env.getEnv w.api fuel pages doms hgd⟩

/-- A single-page listing body holding the one zone `dom1`. -/
def okBody : Json :=
  .obj [("success", .bool true),
        ("result", .arr [.obj [("id", .str "id1"), ("name", .str "one.com")]]),
        ("result_info", .obj [("page", .num 1), ("total_pages", .num 1),
                              ("count", .num 1), ("total_count", .num 1)]),
        ("errors", .arr [])]

def okApi : Nat → ListingReply := fun _ => .httpOk okBody

/-- A world in which the whole run succeeds end to end. -/
def okWorld : World :=
  ⟨⟨["prog"], fun _ => false, fun _ => false, true, goodEnv⟩,
   okApi, fun _ => okExportEnv, emptyFs, true, true⟩

/-- C7 witness: the full successful run lists page 1, then exports
`dom1`. -/
theorem listing_completes_before_exports_witness :
    seqTrace okWorld 1 [Event.listReq 1, Event.exportReq dom1] :=
  listing_completes_before_exports okWorld 1
    [Event.listReq 1, Event.exportReq dom1]
    (fsWrite emptyFs (exportPath dom1) "A example.com 1.2.3.4")
    (.ok ()) rfl

end CfExport
